import Mathlib

/-!
Verification of the hwbp hardware-breakpoint library.

The embedding models:
* the `dr7` debug-control-register bit-field view (from the register
  header, `typedef union { struct { ... }; uint64_t flags; } dr7`) as a
  structure of natural-number fields together with `decode`/`encode`
  between the raw 64-bit value and the field view;
* the descriptor type `HWBP` and the pure context-mutation functions
  `get_free_index`, `bp_add_to_ctx`, `bp_remove_from_ctx` from hwbp.h /
  hwbp.c;
* the OS-facing transactions `bp_enable` / `bp_disable` over an oracle
  giving the success/failure of each OS primitive (OpenThread,
  SuspendThread, GetThreadContext, SetThreadContext), recording in a
  trace how many calls were made to each primitive.
-/

namespace Hwbp

/-- `BP_READ_WRITE` breakpoint-condition enumeration from hwbp.h. -/
inductive BP_READ_WRITE where
  | INSTRUCTION_EXECUTION
  | DATA_WRITEONLY
  | IO_READWRITE
  | DATA_READWRITE
  deriving Repr, DecidableEq

/-- Numeric value of each `BP_READ_WRITE` constant (hwbp.h assigns 0..3). -/
def rwCode : BP_READ_WRITE → Nat
  | .INSTRUCTION_EXECUTION => 0
  | .DATA_WRITEONLY => 1
  | .IO_READWRITE => 2
  | .DATA_READWRITE => 3

/-- `BP_LENGTH` watched-region-size enumeration from hwbp.h. -/
inductive BP_LENGTH where
  | ONE_BYTE
  | TWO_BYTE
  | EIGHT_BYTE
  | FOUR_BYTE
  deriving Repr, DecidableEq

/-- Numeric value of each `BP_LENGTH` constant
(hwbp.h: ONE_BYTE = 0, TWO_BYTE = 1, EIGHT_BYTE = 2, FOUR_BYTE = 3). -/
def lengthCode : BP_LENGTH → Nat
  | .ONE_BYTE => 0
  | .TWO_BYTE => 1
  | .EIGHT_BYTE => 2
  | .FOUR_BYTE => 3

/-- The watched-region size in bytes named by each `BP_LENGTH` constant. -/
def lengthBytes : BP_LENGTH → Nat
  | .ONE_BYTE => 1
  | .TWO_BYTE => 2
  | .EIGHT_BYTE => 8
  | .FOUR_BYTE => 4

/-- The decoded bit-field view of the 64-bit DR7 debug control register,
field for field as in the C header (bit positions in comments). -/
structure dr7 where
  local_breakpoint_0 : Nat                -- bit 0
  global_breakpoint_0 : Nat               -- bit 1
  local_breakpoint_1 : Nat                -- bit 2
  global_breakpoint_1 : Nat               -- bit 3
  local_breakpoint_2 : Nat                -- bit 4
  global_breakpoint_2 : Nat               -- bit 5
  local_breakpoint_3 : Nat                -- bit 6
  global_breakpoint_3 : Nat               -- bit 7
  local_exact_breakpoint : Nat            -- bit 8
  global_exact_breakpoint : Nat           -- bit 9
  reserved1 : Nat                         -- bit 10
  restricted_transactional_memory : Nat   -- bit 11
  reserved2 : Nat                         -- bit 12
  general_detect : Nat                    -- bit 13
  reserved3 : Nat                         -- bits 14-15
  read_write_0 : Nat                      -- bits 16-17
  length_0 : Nat                          -- bits 18-19
  read_write_1 : Nat                      -- bits 20-21
  length_1 : Nat                          -- bits 22-23
  read_write_2 : Nat                      -- bits 24-25
  length_2 : Nat                          -- bits 26-27
  read_write_3 : Nat                      -- bits 28-29
  length_3 : Nat                          -- bits 30-31
  reserved4 : Nat                         -- bits 32-63
  deriving Repr, DecidableEq

/-- Reading the union through the bit-field view: extract every field of
DR7 from the raw 64-bit value (`_dr7.flags = ctx->Dr7`). -/
def decode (x : Nat) : dr7 where
  local_breakpoint_0 := x % 2
  global_breakpoint_0 := x / 2 % 2
  local_breakpoint_1 := x / 4 % 2
  global_breakpoint_1 := x / 8 % 2
  local_breakpoint_2 := x / 16 % 2
  global_breakpoint_2 := x / 32 % 2
  local_breakpoint_3 := x / 64 % 2
  global_breakpoint_3 := x / 128 % 2
  local_exact_breakpoint := x / 256 % 2
  global_exact_breakpoint := x / 512 % 2
  reserved1 := x / 1024 % 2
  restricted_transactional_memory := x / 2048 % 2
  reserved2 := x / 4096 % 2
  general_detect := x / 8192 % 2
  reserved3 := x / 16384 % 4
  read_write_0 := x / 65536 % 4
  length_0 := x / 262144 % 4
  read_write_1 := x / 1048576 % 4
  length_1 := x / 4194304 % 4
  read_write_2 := x / 16777216 % 4
  length_2 := x / 67108864 % 4
  read_write_3 := x / 268435456 % 4
  length_3 := x / 1073741824 % 4
  reserved4 := x / 4294967296 % 4294967296

/-- Writing the union back out (`ctx->Dr7 = _dr7.flags`): reassemble the
raw 64-bit value from the fields, each at its hardware bit offset. -/
def encode (d : dr7) : Nat :=
  d.local_breakpoint_0
  + 2 * d.global_breakpoint_0
  + 4 * d.local_breakpoint_1
  + 8 * d.global_breakpoint_1
  + 16 * d.local_breakpoint_2
  + 32 * d.global_breakpoint_2
  + 64 * d.local_breakpoint_3
  + 128 * d.global_breakpoint_3
  + 256 * d.local_exact_breakpoint
  + 512 * d.global_exact_breakpoint
  + 1024 * d.reserved1
  + 2048 * d.restricted_transactional_memory
  + 4096 * d.reserved2
  + 8192 * d.general_detect
  + 16384 * d.reserved3
  + 65536 * d.read_write_0
  + 262144 * d.length_0
  + 1048576 * d.read_write_1
  + 4194304 * d.length_1
  + 16777216 * d.read_write_2
  + 67108864 * d.length_2
  + 268435456 * d.read_write_3
  + 1073741824 * d.length_3
  + 4294967296 * d.reserved4

/-- Every field of the view is within its hardware bit width. -/
def dr7Bounded (d : dr7) : Prop :=
  d.local_breakpoint_0 < 2 ∧ d.global_breakpoint_0 < 2 ∧
  d.local_breakpoint_1 < 2 ∧ d.global_breakpoint_1 < 2 ∧
  d.local_breakpoint_2 < 2 ∧ d.global_breakpoint_2 < 2 ∧
  d.local_breakpoint_3 < 2 ∧ d.global_breakpoint_3 < 2 ∧
  d.local_exact_breakpoint < 2 ∧ d.global_exact_breakpoint < 2 ∧
  d.reserved1 < 2 ∧ d.restricted_transactional_memory < 2 ∧
  d.reserved2 < 2 ∧ d.general_detect < 2 ∧ d.reserved3 < 4 ∧
  d.read_write_0 < 4 ∧ d.length_0 < 4 ∧
  d.read_write_1 < 4 ∧ d.length_1 < 4 ∧
  d.read_write_2 < 4 ∧ d.length_2 < 4 ∧
  d.read_write_3 < 4 ∧ d.length_3 < 4 ∧
  d.reserved4 < 4294967296

/-- Bit `k` of a raw register value, as an arithmetic extraction. -/
def nthBit (x k : Nat) : Nat := x / 2 ^ k % 2

/-- Local-enable bit of slot `i` (bit `2*i` of DR7, for `i < 4`). -/
def localBit (x i : Nat) : Nat := x / 2 ^ (2 * i) % 2

/-- The DR7 bits owned by slot `i`: its local-enable bit `2*i` and its
type/length field bits `16+4*i .. 19+4*i`. -/
def dr7OwnedBit (i k : Nat) : Prop := k = 2 * i ∨ (16 + 4 * i ≤ k ∧ k < 20 + 4 * i)

instance (i k : Nat) : Decidable (dr7OwnedBit i k) := by
  unfold dr7OwnedBit; infer_instance

/-- Overwrite the `w`-bit field of `x` that starts at bit `p` with value `v`,
leaving the bits below `p` and at or above `p + w` in place. -/
def setField (x p w v : Nat) : Nat :=
  x % 2 ^ p + 2 ^ p * v + 2 ^ (p + w) * (x / 2 ^ (p + w))

/-- The `HWBP` breakpoint descriptor from hwbp.h (`target` as the numeric
value of the watched address, `index` as the mathematical integer held by
the `int8_t` field). -/
structure HWBP where
  target : Nat
  threadId : Nat
  read_write : BP_READ_WRITE
  length : BP_LENGTH
  index : Int
  enabled : Bool
  deriving Repr, DecidableEq

/-- `bp_init`: fill in a fresh descriptor; `index = -1`, `enabled = FALSE`. -/
def bp_init (lpTarget threadId : Nat) (read_write : BP_READ_WRITE) (length : BP_LENGTH) : HWBP :=
  { target := lpTarget
    threadId := threadId
    read_write := read_write
    length := length
    index := -1
    enabled := false }

/-- The debug-register part of the Windows `CONTEXT` that the code reads
and writes (`ContextFlags = CONTEXT_DEBUG_REGISTERS`). -/
structure CONTEXT where
  Dr0 : Nat
  Dr1 : Nat
  Dr2 : Nat
  Dr3 : Nat
  Dr7 : Nat
  deriving Repr, DecidableEq

/-- Address register `j` of a context (`Dr0`..`Dr3`). -/
def addrReg (c : CONTEXT) : Nat → Nat
  | 0 => c.Dr0
  | 1 => c.Dr1
  | 2 => c.Dr2
  | 3 => c.Dr3
  | _ => 0

/-- The 2-bit length field of slot `j` in a decoded DR7 view. -/
def slotLengthField (d : dr7) : Nat → Nat
  | 0 => d.length_0
  | 1 => d.length_1
  | 2 => d.length_2
  | 3 => d.length_3
  | _ => 0

/-- `get_free_index`: first slot whose local-enable bit is clear, else -1. -/
def get_free_index (d : dr7) : Int :=
  if d.local_breakpoint_0 = 0 then 0
  else if d.local_breakpoint_1 = 0 then 1
  else if d.local_breakpoint_2 = 0 then 2
  else if d.local_breakpoint_3 = 0 then 3
  else -1

/-- `bp_add_to_ctx`: claim a free slot in the context for descriptor `bp`.
Returns `(ok, bp', ctx')`, mirroring the C function's BOOL result and its
in-place mutation of `*bp` and `*ctx`.  The final `_` arm is the C
`default:` branch ("should never happen"). -/
def bp_add_to_ctx (bp : HWBP) (ctx : CONTEXT) : Bool × HWBP × CONTEXT :=
  let d := decode ctx.Dr7
  let idx := get_free_index d
  if idx = -1 then (false, bp, ctx)
  else
    match idx with
    | 0 => (true, { bp with index := 0 },
        { ctx with Dr0 := bp.target,
                   Dr7 := encode { d with local_breakpoint_0 := 1,
                                          length_0 := lengthCode bp.length,
                                          read_write_0 := rwCode bp.read_write } })
    | 1 => (true, { bp with index := 1 },
        { ctx with Dr1 := bp.target,
                   Dr7 := encode { d with local_breakpoint_1 := 1,
                                          length_1 := lengthCode bp.length,
                                          read_write_1 := rwCode bp.read_write } })
    | 2 => (true, { bp with index := 2 },
        { ctx with Dr2 := bp.target,
                   Dr7 := encode { d with local_breakpoint_2 := 1,
                                          length_2 := lengthCode bp.length,
                                          read_write_2 := rwCode bp.read_write } })
    | 3 => (true, { bp with index := 3 },
        { ctx with Dr3 := bp.target,
                   Dr7 := encode { d with local_breakpoint_3 := 1,
                                          length_3 := lengthCode bp.length,
                                          read_write_3 := rwCode bp.read_write } })
    | _ => (false, bp, ctx)

/-- `bp_remove_from_ctx`: clear the slot recorded in `bp.index`.  The `_`
arm is the C `default:` branch, which sets `bp->enabled = FALSE` and
returns FALSE without touching the context. -/
def bp_remove_from_ctx (bp : HWBP) (ctx : CONTEXT) : Bool × HWBP × CONTEXT :=
  let d := decode ctx.Dr7
  match bp.index with
  | 0 => (true, { bp with index := -1 },
      { ctx with Dr0 := 0,
                 Dr7 := encode { d with local_breakpoint_0 := 0,
                                        length_0 := 0,
                                        read_write_0 := 0 } })
  | 1 => (true, { bp with index := -1 },
      { ctx with Dr1 := 0,
                 Dr7 := encode { d with local_breakpoint_1 := 0,
                                        length_1 := 0,
                                        read_write_1 := 0 } })
  | 2 => (true, { bp with index := -1 },
      { ctx with Dr2 := 0,
                 Dr7 := encode { d with local_breakpoint_2 := 0,
                                        length_2 := 0,
                                        read_write_2 := 0 } })
  | 3 => (true, { bp with index := -1 },
      { ctx with Dr3 := 0,
                 Dr7 := encode { d with local_breakpoint_3 := 0,
                                        length_3 := 0,
                                        read_write_3 := 0 } })
  | _ => (false, { bp with enabled := false }, ctx)

/-- Success/failure oracle for the four OS primitives a transaction uses. -/
structure OsOracle where
  openOk : Bool
  suspendOk : Bool
  getOk : Bool
  setOk : Bool
  deriving Repr, DecidableEq

/-- The all-success oracle. -/
def osAllOk : OsOracle := ⟨true, true, true, true⟩

/-- Number of calls a transaction made to each OS primitive. -/
structure Trace where
  openCalls : Nat
  closeCalls : Nat
  suspendCalls : Nat
  resumeCalls : Nat
  getCalls : Nat
  setCalls : Nat
  deriving Repr, DecidableEq

/-- Result of running a transaction: the returned BOOL, the descriptor and
the target thread's debug registers afterwards, and the call trace. -/
structure OpResult where
  ok : Bool
  bp : HWBP
  thread : CONTEXT
  trace : Trace
  deriving Repr, DecidableEq

/-- `bp_enable` over the OS oracle, following the C control flow step by
step: OpenThread, SuspendThread, GetThreadContext (reads the thread's
debug registers), `bp_add_to_ctx` on the local copy, SetThreadContext
(commits the copy), ResumeThread, CloseHandle, `bp->enabled = TRUE`. -/
def bp_enable (bp : HWBP) (th : CONTEXT) (os : OsOracle) : OpResult :=
  if !os.openOk then ⟨false, bp, th, ⟨1, 0, 0, 0, 0, 0⟩⟩
  else if !os.suspendOk then ⟨false, bp, th, ⟨1, 1, 1, 0, 0, 0⟩⟩
  else if !os.getOk then ⟨false, bp, th, ⟨1, 1, 1, 1, 1, 0⟩⟩
  else
    match bp_add_to_ctx bp th with
    | (false, bp1, _) => ⟨false, bp1, th, ⟨1, 1, 1, 1, 1, 0⟩⟩
    | (true, bp1, ctx1) =>
      if !os.setOk then ⟨false, bp1, th, ⟨1, 1, 1, 1, 1, 1⟩⟩
      else ⟨true, { bp1 with enabled := true }, ctx1, ⟨1, 1, 1, 1, 1, 1⟩⟩

/-- `bp_disable` over the OS oracle, following the C control flow step by
step; the mutation step is `bp_remove_from_ctx`, and on success the code
sets `bp->enabled = FALSE` after resuming and closing. -/
def bp_disable (bp : HWBP) (th : CONTEXT) (os : OsOracle) : OpResult :=
  if !os.openOk then ⟨false, bp, th, ⟨1, 0, 0, 0, 0, 0⟩⟩
  else if !os.suspendOk then ⟨false, bp, th, ⟨1, 1, 1, 0, 0, 0⟩⟩
  else if !os.getOk then ⟨false, bp, th, ⟨1, 1, 1, 1, 1, 0⟩⟩
  else
    match bp_remove_from_ctx bp th with
    | (false, bp1, _) => ⟨false, bp1, th, ⟨1, 1, 1, 1, 1, 0⟩⟩
    | (true, bp1, ctx1) =>
      if !os.setOk then ⟨false, bp1, th, ⟨1, 1, 1, 1, 1, 1⟩⟩
      else ⟨true, { bp1 with enabled := false }, ctx1, ⟨1, 1, 1, 1, 1, 1⟩⟩

/-- The descriptor invariant of the spec: `slot` is unassigned iff
`enabled` is false. -/
def hwbpInv (bp : HWBP) : Prop := bp.index = -1 ↔ bp.enabled = false

/-- The descriptor's slot field is one of the values the library ever
stores in it: -1 or a slot index 0..3. -/
def hwbpWf (bp : HWBP) : Prop := -1 ≤ bp.index ∧ bp.index < 4

theorem encode_decode (x : Nat) (hx : x < 2 ^ 64) : encode (decode x) = x := by
  simp only [encode, decode]
  omega

theorem nthBit_add_mul_high (a b k : Nat) : nthBit (a + 2 ^ (k + 1) * b) k = nthBit a k := by
  have h : (2:Nat) ^ (k + 1) * b = 2 ^ k * (2 * b) := by ring
  rw [nthBit, nthBit, h, Nat.add_mul_div_left _ _ (show 0 < (2:Nat) ^ k by positivity),
    Nat.add_mul_mod_self_left]

theorem nthBit_mod_high (x p k : Nat) (h : k < p) : nthBit (x % 2 ^ p) k = nthBit x k := by
  conv_rhs => rw [← Nat.mod_add_div x (2 ^ p)]
  have h2 : (2:Nat) ^ p = 2 ^ (k + 1) * 2 ^ (p - k - 1) := by
    rw [← pow_add]; congr 1; omega
  rw [h2, mul_assoc, nthBit_add_mul_high]

theorem nthBit_setField (x p w v k : Nat) (hv : v < 2 ^ w) (hk : k < p ∨ p + w ≤ k) :
    nthBit (setField x p w v) k = nthBit x k := by
  rcases hk with hk | hk
  · rw [← nthBit_mod_high x p k hk]
    unfold setField
    generalize x / 2 ^ (p + w) = q
    generalize x % 2 ^ p = u
    have e1 : (2:Nat) ^ p = 2 ^ (k + 1) * 2 ^ (p - k - 1) := by
      rw [← pow_add]; congr 1; omega
    have e2 : (2:Nat) ^ (p + w) = 2 ^ (k + 1) * 2 ^ (p + w - k - 1) := by
      rw [← pow_add]; congr 1; omega
    rw [e1, e2, mul_assoc, mul_assoc, add_assoc, ← Nat.mul_add, nthBit_add_mul_high]
  · have hlow : x % 2 ^ p + 2 ^ p * v < 2 ^ (p + w) :=
      calc x % 2 ^ p + 2 ^ p * v
          < 2 ^ p + 2 ^ p * v :=
            Nat.add_lt_add_right (Nat.mod_lt _ (by positivity)) _
        _ = 2 ^ p * (v + 1) := by ring
        _ ≤ 2 ^ p * 2 ^ w := mul_le_mul_left' hv _
        _ = 2 ^ (p + w) := (pow_add 2 p w).symm
    have hdiv : setField x p w v / 2 ^ (p + w) = x / 2 ^ (p + w) := by
      unfold setField
      rw [Nat.add_mul_div_left _ _ (show 0 < (2:Nat) ^ (p + w) by positivity),
        Nat.div_eq_of_lt hlow, Nat.zero_add]
    unfold nthBit
    have ek : (2:Nat) ^ k = 2 ^ (p + w) * 2 ^ (k - (p + w)) := by
      rw [← pow_add]; congr 1; omega
    rw [ek, ← Nat.div_div_eq_div_mul, ← Nat.div_div_eq_div_mul, hdiv]

theorem encode_upd0 (d : dr7) (hd : dr7Bounded d) (l c1 c2 : Nat)
    (hl : l < 2) (h1 : c1 < 4) (h2 : c2 < 4) :
    encode { d with local_breakpoint_0 := l, read_write_0 := c2, length_0 := c1 }
      = setField (setField (encode d) 0 1 l) 16 4 (c2 + 4 * c1) := by
  obtain ⟨b1, b2, b3, b4, b5, b6, b7, b8, b9, b10, b11, b12, b13, b14, b15, b16,
    b17, b18, b19, b20, b21, b22, b23, b24⟩ := hd
  simp only [encode, setField]
  norm_num
  omega

theorem encode_upd1 (d : dr7) (hd : dr7Bounded d) (l c1 c2 : Nat)
    (hl : l < 2) (h1 : c1 < 4) (h2 : c2 < 4) :
    encode { d with local_breakpoint_1 := l, read_write_1 := c2, length_1 := c1 }
      = setField (setField (encode d) 2 1 l) 20 4 (c2 + 4 * c1) := by
  obtain ⟨b1, b2, b3, b4, b5, b6, b7, b8, b9, b10, b11, b12, b13, b14, b15, b16,
    b17, b18, b19, b20, b21, b22, b23, b24⟩ := hd
  simp only [encode, setField]
  norm_num
  omega

theorem encode_upd2 (d : dr7) (hd : dr7Bounded d) (l c1 c2 : Nat)
    (hl : l < 2) (h1 : c1 < 4) (h2 : c2 < 4) :
    encode { d with local_breakpoint_2 := l, read_write_2 := c2, length_2 := c1 }
      = setField (setField (encode d) 4 1 l) 24 4 (c2 + 4 * c1) := by
  obtain ⟨b1, b2, b3, b4, b5, b6, b7, b8, b9, b10, b11, b12, b13, b14, b15, b16,
    b17, b18, b19, b20, b21, b22, b23, b24⟩ := hd
  simp only [encode, setField]
  norm_num
  omega

theorem encode_upd3 (d : dr7) (hd : dr7Bounded d) (l c1 c2 : Nat)
    (hl : l < 2) (h1 : c1 < 4) (h2 : c2 < 4) :
    encode { d with local_breakpoint_3 := l, read_write_3 := c2, length_3 := c1 }
      = setField (setField (encode d) 6 1 l) 28 4 (c2 + 4 * c1) := by
  obtain ⟨b1, b2, b3, b4, b5, b6, b7, b8, b9, b10, b11, b12, b13, b14, b15, b16,
    b17, b18, b19, b20, b21, b22, b23, b24⟩ := hd
  simp only [encode, setField]
  norm_num
  omega

theorem frame_upd0 (d : dr7) (hd : dr7Bounded d) (l c1 c2 : Nat)
    (hl : l < 2) (h1 : c1 < 4) (h2 : c2 < 4) (k : Nat) (hk : ¬ dr7OwnedBit 0 k) :
    nthBit (encode { d with local_breakpoint_0 := l, read_write_0 := c2, length_0 := c1 }) k
      = nthBit (encode d) k := by
  unfold dr7OwnedBit at hk
  rw [encode_upd0 d hd l c1 c2 hl h1 h2,
    nthBit_setField (setField (encode d) 0 1 l) 16 4 (c2 + 4 * c1) k (by omega) (by omega),
    nthBit_setField (encode d) 0 1 l k (by omega) (by omega)]

theorem frame_upd1 (d : dr7) (hd : dr7Bounded d) (l c1 c2 : Nat)
    (hl : l < 2) (h1 : c1 < 4) (h2 : c2 < 4) (k : Nat) (hk : ¬ dr7OwnedBit 1 k) :
    nthBit (encode { d with local_breakpoint_1 := l, read_write_1 := c2, length_1 := c1 }) k
      = nthBit (encode d) k := by
  unfold dr7OwnedBit at hk
  rw [encode_upd1 d hd l c1 c2 hl h1 h2,
    nthBit_setField (setField (encode d) 2 1 l) 20 4 (c2 + 4 * c1) k (by omega) (by omega),
    nthBit_setField (encode d) 2 1 l k (by omega) (by omega)]

theorem frame_upd2 (d : dr7) (hd : dr7Bounded d) (l c1 c2 : Nat)
    (hl : l < 2) (h1 : c1 < 4) (h2 : c2 < 4) (k : Nat) (hk : ¬ dr7OwnedBit 2 k) :
    nthBit (encode { d with local_breakpoint_2 := l, read_write_2 := c2, length_2 := c1 }) k
      = nthBit (encode d) k := by
  unfold dr7OwnedBit at hk
  rw [encode_upd2 d hd l c1 c2 hl h1 h2,
    nthBit_setField (setField (encode d) 4 1 l) 24 4 (c2 + 4 * c1) k (by omega) (by omega),
    nthBit_setField (encode d) 4 1 l k (by omega) (by omega)]

theorem frame_upd3 (d : dr7) (hd : dr7Bounded d) (l c1 c2 : Nat)
    (hl : l < 2) (h1 : c1 < 4) (h2 : c2 < 4) (k : Nat) (hk : ¬ dr7OwnedBit 3 k) :
    nthBit (encode { d with local_breakpoint_3 := l, read_write_3 := c2, length_3 := c1 }) k
      = nthBit (encode d) k := by
  unfold dr7OwnedBit at hk
  rw [encode_upd3 d hd l c1 c2 hl h1 h2,
    nthBit_setField (setField (encode d) 6 1 l) 28 4 (c2 + 4 * c1) k (by omega) (by omega),
    nthBit_setField (encode d) 6 1 l k (by omega) (by omega)]

theorem decode_bounded (x : Nat) : dr7Bounded (decode x) := by
  unfold dr7Bounded decode
  dsimp only
  omega

theorem decode_encode (d : dr7) (hd : dr7Bounded d) : decode (encode d) = d := by
  obtain ⟨f1, f2, f3, f4, f5, f6, f7, f8, f9, f10, f11, f12, f13, f14, f15, f16,
    f17, f18, f19, f20, f21, f22, f23, f24⟩ := d
  unfold dr7Bounded at hd
  dsimp only at hd
  obtain ⟨b1, b2, b3, b4, b5, b6, b7, b8, b9, b10, b11, b12, b13, b14, b15, b16,
    b17, b18, b19, b20, b21, b22, b23, b24⟩ := hd
  simp only [decode, encode, dr7.mk.injEq]
  omega

theorem get_free_index_cases (d : dr7) :
    get_free_index d = -1 ∨ get_free_index d = 0 ∨ get_free_index d = 1 ∨
      get_free_index d = 2 ∨ get_free_index d = 3 := by
  unfold get_free_index
  split_ifs <;> simp

theorem lengthCode_lt (L : BP_LENGTH) : lengthCode L < 4 := by cases L <;> decide

theorem rwCode_lt (r : BP_READ_WRITE) : rwCode r < 4 := by cases r <;> decide

/-- C3: for every 64-bit value `x`, decoding `x` into the per-slot field
view of DR7 and re-encoding that view yields `x` back. -/
theorem C3_encode_decode_roundtrip (x : Nat) (hx : x < 2 ^ 64) :
    encode (decode x) = x :=
  encode_decode x hx

theorem C3_witness : encode (decode 1311768467463790320) = 1311768467463790320 :=
  C3_encode_decode_roundtrip 1311768467463790320 (by decide)

/-- C2: `get_free_index` returns the lowest slot index in {0,1,2,3} whose
local-enable bit is 0, returns -1 ("exhausted") iff all four local-enable
bits are 1, and its result depends only on the four local-enable bits of
the snapshot. -/
theorem C2_findFreeSlot_correct (x : Nat) :
    (get_free_index (decode x) = -1 ↔
      localBit x 0 = 1 ∧ localBit x 1 = 1 ∧ localBit x 2 = 1 ∧ localBit x 3 = 1)
    ∧ (∀ i : Nat, i < 4 → localBit x i = 0 → (∀ j, j < i → localBit x j = 1) →
        get_free_index (decode x) = (i : Int))
    ∧ (∀ y : Nat, (∀ i, i < 4 → localBit x i = localBit y i) →
        get_free_index (decode x) = get_free_index (decode y)) := by
  refine ⟨?_, ?_, ?_⟩
  · unfold get_free_index decode localBit
    norm_num
    split_ifs <;> simp <;> omega
  · intro i hi h0 hj
    interval_cases i
    · unfold localBit at h0
      norm_num at h0
      unfold get_free_index decode
      split_ifs <;> simp_all <;> omega
    · have a0 := hj 0 (by omega)
      unfold localBit at h0 a0
      norm_num at h0 a0
      unfold get_free_index decode
      split_ifs <;> simp_all <;> omega
    · have a0 := hj 0 (by omega)
      have a1 := hj 1 (by omega)
      unfold localBit at h0 a0 a1
      norm_num at h0 a0 a1
      unfold get_free_index decode
      split_ifs <;> simp_all <;> omega
    · have a0 := hj 0 (by omega)
      have a1 := hj 1 (by omega)
      have a2 := hj 2 (by omega)
      unfold localBit at h0 a0 a1 a2
      norm_num at h0 a0 a1 a2
      unfold get_free_index decode
      split_ifs <;> simp_all <;> omega
  · intro y hy
    have a0 := hy 0 (by omega)
    have a1 := hy 1 (by omega)
    have a2 := hy 2 (by omega)
    have a3 := hy 3 (by omega)
    unfold localBit at a0 a1 a2 a3
    norm_num at a0 a1 a2 a3
    unfold get_free_index decode
    split_ifs <;> simp_all <;> omega

theorem C2_witness : get_free_index (decode 5) = (2 : Int) :=
  (C2_findFreeSlot_correct 5).2.1 2 (by decide) (by decide) (by decide)

/-- C1: in every transaction run by `bp_enable` or `bp_disable`, if the
suspend step succeeds (OpenThread and SuspendThread both succeed) then
ResumeThread is called exactly once, and every successful handle
acquisition is matched by exactly one CloseHandle, on every path. -/
theorem C1_transaction_symmetry (bp : HWBP) (th : CONTEXT) (os : OsOracle) :
    (os.openOk = true → os.suspendOk = true →
      (bp_enable bp th os).trace.resumeCalls = 1 ∧
      (bp_enable bp th os).trace.suspendCalls = 1 ∧
      (bp_disable bp th os).trace.resumeCalls = 1 ∧
      (bp_disable bp th os).trace.suspendCalls = 1)
    ∧ (os.openOk = true →
      (bp_enable bp th os).trace.openCalls = 1 ∧
      (bp_enable bp th os).trace.closeCalls = 1 ∧
      (bp_disable bp th os).trace.openCalls = 1 ∧
      (bp_disable bp th os).trace.closeCalls = 1) := by
  rcases hA : bp_add_to_ctx bp th with ⟨okA, bpA, ctxA⟩
  rcases hR : bp_remove_from_ctx bp th with ⟨okR, bpR, ctxR⟩
  obtain ⟨o, s, g, st⟩ := os
  cases o <;> cases s <;> cases g <;> cases st <;> cases okA <;> cases okR <;>
    simp [bp_enable, bp_disable, hA, hR]

theorem C1_witness :
    (bp_enable (bp_init 4096 7 .DATA_WRITEONLY .FOUR_BYTE) ⟨0, 0, 0, 0, 0⟩ osAllOk).trace.resumeCalls
      = 1 :=
  ((C1_transaction_symmetry (bp_init 4096 7 .DATA_WRITEONLY .FOUR_BYTE) ⟨0, 0, 0, 0, 0⟩
    osAllOk).1 rfl rfl).1

/-- C10: `get_free_index` always returns one of -1,0,1,2,3, the `default`
branch of `bp_add_to_ctx` is unreachable (the call fails exactly when the
allocator is exhausted), and on success the recorded slot index is one of
0..3 and is the slot whose address register received the target and whose
local-enable bit was set. -/
theorem C10_allocator_safety (bp : HWBP) (ctx : CONTEXT) :
    (get_free_index (decode ctx.Dr7) = -1 ∨ get_free_index (decode ctx.Dr7) = 0 ∨
      get_free_index (decode ctx.Dr7) = 1 ∨ get_free_index (decode ctx.Dr7) = 2 ∨
      get_free_index (decode ctx.Dr7) = 3)
    ∧ ((bp_add_to_ctx bp ctx).1 = false ↔ get_free_index (decode ctx.Dr7) = -1)
    ∧ (∀ bp' ctx', bp_add_to_ctx bp ctx = (true, bp', ctx') →
        ∃ i : Nat, i < 4 ∧ bp'.index = (i : Int) ∧ addrReg ctx' i = bp.target ∧
          localBit ctx'.Dr7 i = 1) := by
  refine ⟨get_free_index_cases _, ?_, ?_⟩
  · rcases get_free_index_cases (decode ctx.Dr7) with h | h | h | h | h <;>
      simp [bp_add_to_ctx, h]
  · intro bp' ctx' heq
    rcases get_free_index_cases (decode ctx.Dr7) with h | h | h | h | h
    · simp [bp_add_to_ctx, h] at heq
    · simp [bp_add_to_ctx, h] at heq
      obtain ⟨hbp, hctx⟩ := heq
      subst hbp; subst hctx
      refine ⟨0, by norm_num, by norm_num, rfl, ?_⟩
      unfold localBit encode decode
      norm_num
      omega
    · simp [bp_add_to_ctx, h] at heq
      obtain ⟨hbp, hctx⟩ := heq
      subst hbp; subst hctx
      refine ⟨1, by norm_num, by norm_num, rfl, ?_⟩
      unfold localBit encode decode
      norm_num
      omega
    · simp [bp_add_to_ctx, h] at heq
      obtain ⟨hbp, hctx⟩ := heq
      subst hbp; subst hctx
      refine ⟨2, by norm_num, by norm_num, rfl, ?_⟩
      unfold localBit encode decode
      norm_num
      omega
    · simp [bp_add_to_ctx, h] at heq
      obtain ⟨hbp, hctx⟩ := heq
      subst hbp; subst hctx
      refine ⟨3, by norm_num, by norm_num, rfl, ?_⟩
      unfold localBit encode decode
      norm_num
      omega

theorem C10_witness :
    ∃ i : Nat, i < 4 ∧
      ((⟨4096, 7, .DATA_WRITEONLY, .FOUR_BYTE, 0, false⟩ : HWBP)).index = (i : Int) ∧
      addrReg ⟨4096, 0, 0, 0, 851969⟩ i = (bp_init 4096 7 .DATA_WRITEONLY .FOUR_BYTE).target ∧
      localBit (⟨4096, 0, 0, 0, 851969⟩ : CONTEXT).Dr7 i = 1 :=
  (C10_allocator_safety (bp_init 4096 7 .DATA_WRITEONLY .FOUR_BYTE) ⟨0, 0, 0, 0, 0⟩).2.2
    _ _ (by decide)

/-- C4: a successful `bp_add_to_ctx` claiming slot `i`, and a successful
`bp_remove_from_ctx` clearing slot `i`, change only the DR7 bits owned by
slot `i` (its local-enable bit and its 2-bit type and length fields) and
slot `i`'s address register: every other bit of DR7 and every other
address register is unchanged. -/
theorem C4_slot_mutation_frame (bp : HWBP) (ctx : CONTEXT) (i : Nat) (hi : i < 4)
    (hx : ctx.Dr7 < 2 ^ 64) :
    (∀ bp' ctx', bp_add_to_ctx bp ctx = (true, bp', ctx') → bp'.index = (i : Int) →
      (∀ k, ¬ dr7OwnedBit i k → nthBit ctx'.Dr7 k = nthBit ctx.Dr7 k) ∧
      (∀ j, j < 4 → j ≠ i → addrReg ctx' j = addrReg ctx j))
    ∧ (bp.index = (i : Int) → ∀ bp' ctx', bp_remove_from_ctx bp ctx = (true, bp', ctx') →
      (∀ k, ¬ dr7OwnedBit i k → nthBit ctx'.Dr7 k = nthBit ctx.Dr7 k) ∧
      (∀ j, j < 4 → j ≠ i → addrReg ctx' j = addrReg ctx j)) := by
  constructor
  · intro bp' ctx' heq hidx
    rcases get_free_index_cases (decode ctx.Dr7) with h | h | h | h | h
    · simp [bp_add_to_ctx, h] at heq
    · simp [bp_add_to_ctx, h] at heq
      obtain ⟨hbp, hctx⟩ := heq
      subst hbp; subst hctx
      have hi0 : i = 0 := by simp at hidx; omega
      subst hi0
      constructor
      · intro k hk
        have hfr := frame_upd0 (decode ctx.Dr7) (decode_bounded _) 1 (lengthCode bp.length)
          (rwCode bp.read_write) (by norm_num) (lengthCode_lt _) (rwCode_lt _) k hk
        rw [encode_decode _ hx] at hfr
        simpa using hfr
      · intro j hj hne
        interval_cases j <;> first | rfl | omega
    · simp [bp_add_to_ctx, h] at heq
      obtain ⟨hbp, hctx⟩ := heq
      subst hbp; subst hctx
      have hi0 : i = 1 := by simp at hidx; omega
      subst hi0
      constructor
      · intro k hk
        have hfr := frame_upd1 (decode ctx.Dr7) (decode_bounded _) 1 (lengthCode bp.length)
          (rwCode bp.read_write) (by norm_num) (lengthCode_lt _) (rwCode_lt _) k hk
        rw [encode_decode _ hx] at hfr
        simpa using hfr
      · intro j hj hne
        interval_cases j <;> first | rfl | omega
    · simp [bp_add_to_ctx, h] at heq
      obtain ⟨hbp, hctx⟩ := heq
      subst hbp; subst hctx
      have hi0 : i = 2 := by simp at hidx; omega
      subst hi0
      constructor
      · intro k hk
        have hfr := frame_upd2 (decode ctx.Dr7) (decode_bounded _) 1 (lengthCode bp.length)
          (rwCode bp.read_write) (by norm_num) (lengthCode_lt _) (rwCode_lt _) k hk
        rw [encode_decode _ hx] at hfr
        simpa using hfr
      · intro j hj hne
        interval_cases j <;> first | rfl | omega
    · simp [bp_add_to_ctx, h] at heq
      obtain ⟨hbp, hctx⟩ := heq
      subst hbp; subst hctx
      have hi0 : i = 3 := by simp at hidx; omega
      subst hi0
      constructor
      · intro k hk
        have hfr := frame_upd3 (decode ctx.Dr7) (decode_bounded _) 1 (lengthCode bp.length)
          (rwCode bp.read_write) (by norm_num) (lengthCode_lt _) (rwCode_lt _) k hk
        rw [encode_decode _ hx] at hfr
        simpa using hfr
      · intro j hj hne
        interval_cases j <;> first | rfl | omega
  · intro hidx bp' ctx' heq
    interval_cases i
    · norm_cast at hidx
      simp [bp_remove_from_ctx, hidx] at heq
      obtain ⟨hbp, hctx⟩ := heq
      subst hbp; subst hctx
      constructor
      · intro k hk
        have hfr := frame_upd0 (decode ctx.Dr7) (decode_bounded _) 0 0 0
          (by norm_num) (by norm_num) (by norm_num) k hk
        rw [encode_decode _ hx] at hfr
        simpa using hfr
      · intro j hj hne
        interval_cases j <;> first | rfl | omega
    · norm_cast at hidx
      simp [bp_remove_from_ctx, hidx] at heq
      obtain ⟨hbp, hctx⟩ := heq
      subst hbp; subst hctx
      constructor
      · intro k hk
        have hfr := frame_upd1 (decode ctx.Dr7) (decode_bounded _) 0 0 0
          (by norm_num) (by norm_num) (by norm_num) k hk
        rw [encode_decode _ hx] at hfr
        simpa using hfr
      · intro j hj hne
        interval_cases j <;> first | rfl | omega
    · norm_cast at hidx
      simp [bp_remove_from_ctx, hidx] at heq
      obtain ⟨hbp, hctx⟩ := heq
      subst hbp; subst hctx
      constructor
      · intro k hk
        have hfr := frame_upd2 (decode ctx.Dr7) (decode_bounded _) 0 0 0
          (by norm_num) (by norm_num) (by norm_num) k hk
        rw [encode_decode _ hx] at hfr
        simpa using hfr
      · intro j hj hne
        interval_cases j <;> first | rfl | omega
    · norm_cast at hidx
      simp [bp_remove_from_ctx, hidx] at heq
      obtain ⟨hbp, hctx⟩ := heq
      subst hbp; subst hctx
      constructor
      · intro k hk
        have hfr := frame_upd3 (decode ctx.Dr7) (decode_bounded _) 0 0 0
          (by norm_num) (by norm_num) (by norm_num) k hk
        rw [encode_decode _ hx] at hfr
        simpa using hfr
      · intro j hj hne
        interval_cases j <;> first | rfl | omega

theorem C4_witness :
    nthBit (⟨4096, 0, 0, 0, 851969⟩ : CONTEXT).Dr7 1 = nthBit (⟨0, 0, 0, 0, 0⟩ : CONTEXT).Dr7 1 :=
  ((C4_slot_mutation_frame (bp_init 4096 7 .DATA_WRITEONLY .FOUR_BYTE) ⟨0, 0, 0, 0, 0⟩ 0
      (by decide) (by decide)).1
    ⟨4096, 7, .DATA_WRITEONLY, .FOUR_BYTE, 0, false⟩ ⟨4096, 0, 0, 0, 851969⟩
    (by decide) (by decide)).1 1 (by decide)

theorem dr7Bounded_upd0 (d : dr7) (hd : dr7Bounded d) (l c1 c2 : Nat)
    (hl : l < 2) (h1 : c1 < 4) (h2 : c2 < 4) :
    dr7Bounded { d with local_breakpoint_0 := l, read_write_0 := c2, length_0 := c1 } := by
  unfold dr7Bounded at hd ⊢
  obtain ⟨b1, b2, b3, b4, b5, b6, b7, b8, b9, b10, b11, b12, b13, b14, b15, b16,
    b17, b18, b19, b20, b21, b22, b23, b24⟩ := hd
  exact ⟨hl, b2, b3, b4, b5, b6, b7, b8, b9, b10, b11, b12, b13, b14, b15,
    h2, h1, b18, b19, b20, b21, b22, b23, b24⟩

theorem dr7Bounded_upd1 (d : dr7) (hd : dr7Bounded d) (l c1 c2 : Nat)
    (hl : l < 2) (h1 : c1 < 4) (h2 : c2 < 4) :
    dr7Bounded { d with local_breakpoint_1 := l, read_write_1 := c2, length_1 := c1 } := by
  unfold dr7Bounded at hd ⊢
  obtain ⟨b1, b2, b3, b4, b5, b6, b7, b8, b9, b10, b11, b12, b13, b14, b15, b16,
    b17, b18, b19, b20, b21, b22, b23, b24⟩ := hd
  exact ⟨b1, b2, hl, b4, b5, b6, b7, b8, b9, b10, b11, b12, b13, b14, b15,
    b16, b17, h2, h1, b20, b21, b22, b23, b24⟩

theorem dr7Bounded_upd2 (d : dr7) (hd : dr7Bounded d) (l c1 c2 : Nat)
    (hl : l < 2) (h1 : c1 < 4) (h2 : c2 < 4) :
    dr7Bounded { d with local_breakpoint_2 := l, read_write_2 := c2, length_2 := c1 } := by
  unfold dr7Bounded at hd ⊢
  obtain ⟨b1, b2, b3, b4, b5, b6, b7, b8, b9, b10, b11, b12, b13, b14, b15, b16,
    b17, b18, b19, b20, b21, b22, b23, b24⟩ := hd
  exact ⟨b1, b2, b3, b4, hl, b6, b7, b8, b9, b10, b11, b12, b13, b14, b15,
    b16, b17, b18, b19, h2, h1, b22, b23, b24⟩

theorem dr7Bounded_upd3 (d : dr7) (hd : dr7Bounded d) (l c1 c2 : Nat)
    (hl : l < 2) (h1 : c1 < 4) (h2 : c2 < 4) :
    dr7Bounded { d with local_breakpoint_3 := l, read_write_3 := c2, length_3 := c1 } := by
  unfold dr7Bounded at hd ⊢
  obtain ⟨b1, b2, b3, b4, b5, b6, b7, b8, b9, b10, b11, b12, b13, b14, b15, b16,
    b17, b18, b19, b20, b21, b22, b23, b24⟩ := hd
  exact ⟨b1, b2, b3, b4, b5, b6, hl, b8, b9, b10, b11, b12, b13, b14, b15,
    b16, b17, b18, b19, b20, b21, h2, h1, b24⟩

/-- C9: the `BP_LENGTH` enumeration maps watched-region sizes to hardware
codes exactly as 1 byte → 0, 2 bytes → 1, 8 bytes → 2, 4 bytes → 3, and a
successful `bp_add_to_ctx` writes precisely `lengthCode bp.length` into
the claimed slot's 2-bit length field of DR7. -/
theorem C9_length_encoding :
    (lengthBytes .ONE_BYTE = 1 ∧ lengthCode .ONE_BYTE = 0) ∧
    (lengthBytes .TWO_BYTE = 2 ∧ lengthCode .TWO_BYTE = 1) ∧
    (lengthBytes .EIGHT_BYTE = 8 ∧ lengthCode .EIGHT_BYTE = 2) ∧
    (lengthBytes .FOUR_BYTE = 4 ∧ lengthCode .FOUR_BYTE = 3) ∧
    (∀ (bp : HWBP) (ctx : CONTEXT) (bp' : HWBP) (ctx' : CONTEXT) (i : Nat),
      bp_add_to_ctx bp ctx = (true, bp', ctx') → bp'.index = (i : Int) →
      slotLengthField (decode ctx'.Dr7) i = lengthCode bp.length) := by
  refine ⟨by decide, by decide, by decide, by decide, ?_⟩
  intro bp ctx bp' ctx' i heq hidx
  rcases get_free_index_cases (decode ctx.Dr7) with h | h | h | h | h
  · simp [bp_add_to_ctx, h] at heq
  · simp [bp_add_to_ctx, h] at heq
    obtain ⟨hbp, hctx⟩ := heq
    subst hbp; subst hctx
    have hi0 : i = 0 := by simp at hidx; omega
    subst hi0
    have hb := dr7Bounded_upd0 (decode ctx.Dr7) (decode_bounded _) 1 (lengthCode bp.length)
      (rwCode bp.read_write) (by norm_num) (lengthCode_lt _) (rwCode_lt _)
    simp only []
    rw [decode_encode _ hb]
    rfl
  · simp [bp_add_to_ctx, h] at heq
    obtain ⟨hbp, hctx⟩ := heq
    subst hbp; subst hctx
    have hi0 : i = 1 := by simp at hidx; omega
    subst hi0
    have hb := dr7Bounded_upd1 (decode ctx.Dr7) (decode_bounded _) 1 (lengthCode bp.length)
      (rwCode bp.read_write) (by norm_num) (lengthCode_lt _) (rwCode_lt _)
    simp only []
    rw [decode_encode _ hb]
    rfl
  · simp [bp_add_to_ctx, h] at heq
    obtain ⟨hbp, hctx⟩ := heq
    subst hbp; subst hctx
    have hi0 : i = 2 := by simp at hidx; omega
    subst hi0
    have hb := dr7Bounded_upd2 (decode ctx.Dr7) (decode_bounded _) 1 (lengthCode bp.length)
      (rwCode bp.read_write) (by norm_num) (lengthCode_lt _) (rwCode_lt _)
    simp only []
    rw [decode_encode _ hb]
    rfl
  · simp [bp_add_to_ctx, h] at heq
    obtain ⟨hbp, hctx⟩ := heq
    subst hbp; subst hctx
    have hi0 : i = 3 := by simp at hidx; omega
    subst hi0
    have hb := dr7Bounded_upd3 (decode ctx.Dr7) (decode_bounded _) 1 (lengthCode bp.length)
      (rwCode bp.read_write) (by norm_num) (lengthCode_lt _) (rwCode_lt _)
    simp only []
    rw [decode_encode _ hb]
    rfl

theorem C9_witness :
    slotLengthField (decode (⟨4096, 0, 0, 0, 851969⟩ : CONTEXT).Dr7) 0
      = lengthCode (bp_init 4096 7 .DATA_WRITEONLY .FOUR_BYTE).length :=
  C9_length_encoding.2.2.2.2 (bp_init 4096 7 .DATA_WRITEONLY .FOUR_BYTE) ⟨0, 0, 0, 0, 0⟩
    ⟨4096, 7, .DATA_WRITEONLY, .FOUR_BYTE, 0, false⟩ ⟨4096, 0, 0, 0, 851969⟩
    0 (by decide) (by decide)

/-- C5 counterexample: `bp_enable` fails at the SetThreadContext step, yet
the descriptor is changed — its `index` field has been set to the claimed
slot, so the Descriptor is not left completely unchanged on this failure. -/
theorem C5_counterexample :
    (bp_enable (bp_init 4096 7 .DATA_WRITEONLY .FOUR_BYTE) ⟨0, 0, 0, 0, 0⟩
        ⟨true, true, true, false⟩).ok = false ∧
    (bp_enable (bp_init 4096 7 .DATA_WRITEONLY .FOUR_BYTE) ⟨0, 0, 0, 0, 0⟩
        ⟨true, true, true, false⟩).bp.index = 0 ∧
    (bp_init 4096 7 .DATA_WRITEONLY .FOUR_BYTE).index = -1 ∧
    (bp_enable (bp_init 4096 7 .DATA_WRITEONLY .FOUR_BYTE) ⟨0, 0, 0, 0, 0⟩
        ⟨true, true, true, false⟩).bp ≠ bp_init 4096 7 .DATA_WRITEONLY .FOUR_BYTE := by
  decide

/-- C5 (amended): when `bp_enable` fails, the fields `target`, `threadId`,
`read_write`, `length` and `enabled` are unchanged; if the failure is at
handle acquisition, suspend, context read or slot exhaustion (i.e. not at
the context write) the whole Descriptor is unchanged; but on a
SetThreadContext failure the `index` field has been updated to the slot
the mutation step claimed. -/
theorem C5_enable_failure_descriptor (bp : HWBP) (th : CONTEXT) (os : OsOracle)
    (hfail : (bp_enable bp th os).ok = false) :
    ((bp_enable bp th os).bp.target = bp.target ∧
     (bp_enable bp th os).bp.threadId = bp.threadId ∧
     (bp_enable bp th os).bp.read_write = bp.read_write ∧
     (bp_enable bp th os).bp.length = bp.length ∧
     (bp_enable bp th os).bp.enabled = bp.enabled) ∧
    (os.setOk = true → (bp_enable bp th os).bp = bp) ∧
    (os.openOk = true → os.suspendOk = true → os.getOk = true → os.setOk = false →
      ∀ i : Int, get_free_index (decode th.Dr7) = i → i ≠ -1 →
      (bp_enable bp th os).bp = { bp with index := i }) := by
  obtain ⟨o, s, g, st⟩ := os
  rcases get_free_index_cases (decode th.Dr7) with h | h | h | h | h <;>
    cases o <;> cases s <;> cases g <;> cases st <;>
      simp_all [bp_enable, bp_add_to_ctx]

theorem C5_witness :
    (bp_enable (bp_init 4096 7 .DATA_WRITEONLY .FOUR_BYTE) ⟨0, 0, 0, 0, 0⟩
        ⟨false, true, true, true⟩).bp = bp_init 4096 7 .DATA_WRITEONLY .FOUR_BYTE :=
  (C5_enable_failure_descriptor (bp_init 4096 7 .DATA_WRITEONLY .FOUR_BYTE) ⟨0, 0, 0, 0, 0⟩
    ⟨false, true, true, true⟩ (by decide)).2.1 rfl

/-- C6 counterexample: `bp_disable` on a Descriptor with an unassigned
slot does fail, but only after acquiring a handle, suspending the thread
and reading its context (one OpenThread, one SuspendThread and one
GetThreadContext call are made), not "immediately before acquiring a
handle"; it also mutates the Descriptor by forcing `enabled` to false. -/
theorem C6_counterexample :
    (bp_disable (bp_init 4096 7 .DATA_WRITEONLY .FOUR_BYTE) ⟨0, 0, 0, 0, 0⟩ osAllOk).ok = false ∧
    (bp_disable (bp_init 4096 7 .DATA_WRITEONLY .FOUR_BYTE) ⟨0, 0, 0, 0, 0⟩
        osAllOk).trace.openCalls = 1 ∧
    (bp_disable (bp_init 4096 7 .DATA_WRITEONLY .FOUR_BYTE) ⟨0, 0, 0, 0, 0⟩
        osAllOk).trace.suspendCalls = 1 ∧
    (bp_disable (bp_init 4096 7 .DATA_WRITEONLY .FOUR_BYTE) ⟨0, 0, 0, 0, 0⟩
        osAllOk).trace.getCalls = 1 := by
  decide

/-- C6 (amended): `bp_disable` on a Descriptor whose slot is unassigned
fails, but the unassigned-slot check happens in the mutation step: the
handle is acquired, the thread suspended, its context read, and the
thread resumed and the handle released (one call each), the context is
never written back (thread state unchanged, zero SetThreadContext calls),
and `enabled` is forced to false; for a Descriptor with an assigned slot
0..3, on success `bp_disable` resets `index` to -1 and `enabled` to
false. -/
theorem C6_disable_behavior (bp : HWBP) (th : CONTEXT) :
    (bp.index = -1 →
      (bp_disable bp th osAllOk).ok = false ∧
      (bp_disable bp th osAllOk).trace = ⟨1, 1, 1, 1, 1, 0⟩ ∧
      (bp_disable bp th osAllOk).thread = th ∧
      (bp_disable bp th osAllOk).bp = { bp with enabled := false })
    ∧ (∀ i : Nat, i < 4 → bp.index = (i : Int) →
      (bp_disable bp th osAllOk).ok = true ∧
      (bp_disable bp th osAllOk).bp.index = -1 ∧
      (bp_disable bp th osAllOk).bp.enabled = false) := by
  constructor
  · intro hidx
    simp [bp_disable, bp_remove_from_ctx, hidx, osAllOk]
  · intro i hi hidx
    interval_cases i <;> norm_cast at hidx <;>
      simp [bp_disable, bp_remove_from_ctx, hidx, osAllOk]

theorem C6_witness :
    (bp_disable (⟨4096, 7, .DATA_WRITEONLY, .FOUR_BYTE, 0, true⟩ : HWBP)
      ⟨4096, 0, 0, 0, 851969⟩ osAllOk).ok = true :=
  ((C6_disable_behavior ⟨4096, 7, .DATA_WRITEONLY, .FOUR_BYTE, 0, true⟩
    ⟨4096, 0, 0, 0, 851969⟩).2 0 (by decide) (by decide)).1

/-- C7 counterexample: starting from a freshly initialised Descriptor
(which satisfies the invariant "slot unassigned iff not enabled"), a
`bp_enable` call that fails at the SetThreadContext step leaves the
Descriptor with an assigned slot but `enabled = false`, violating the
invariant; so not every call to enable preserves it. -/
theorem C7_counterexample :
    hwbpInv (bp_init 4096 7 .DATA_WRITEONLY .FOUR_BYTE) ∧
    ¬ hwbpInv ((bp_enable (bp_init 4096 7 .DATA_WRITEONLY .FOUR_BYTE) ⟨0, 0, 0, 0, 0⟩
        ⟨true, true, true, false⟩).bp) := by
  constructor
  · unfold hwbpInv bp_init
    simp
  · unfold hwbpInv
    simp [bp_enable, bp_add_to_ctx, bp_init, get_free_index, decode]

/-- C7 (amended): `bp_init` establishes the invariant "slot unassigned iff
not enabled" (together with well-formedness of the slot field), and
`bp_enable` and `bp_disable` preserve both whenever the SetThreadContext
step does not fail — i.e. on success and on handle-acquisition, suspend,
context-read and mutation (exhaustion / invalid-state) failures; a
SetThreadContext failure can break the invariant. -/
theorem C7_invariant_preservation (bp : HWBP) (th : CONTEXT) (os : OsOracle)
    (hwf : hwbpWf bp) (hinv : hwbpInv bp) (hset : os.setOk = true) :
    (∀ (t tid : Nat) (rw : BP_READ_WRITE) (L : BP_LENGTH),
      hwbpInv (bp_init t tid rw L) ∧ hwbpWf (bp_init t tid rw L))
    ∧ (hwbpInv (bp_enable bp th os).bp ∧ hwbpWf (bp_enable bp th os).bp)
    ∧ (hwbpInv (bp_disable bp th os).bp ∧ hwbpWf (bp_disable bp th os).bp) := by
  refine ⟨fun t tid rw L => by simp [bp_init, hwbpInv, hwbpWf], ?_, ?_⟩
  · obtain ⟨o, s, g, st⟩ := os
    subst hset
    rcases get_free_index_cases (decode th.Dr7) with h | h | h | h | h <;>
      cases o <;> cases s <;> cases g <;>
        simp_all [bp_enable, bp_add_to_ctx, hwbpInv, hwbpWf]
  · obtain ⟨o, s, g, st⟩ := os
    subst hset
    have hcases : bp.index = -1 ∨ bp.index = 0 ∨ bp.index = 1 ∨ bp.index = 2 ∨ bp.index = 3 := by
      unfold hwbpWf at hwf
      omega
    rcases hcases with h | h | h | h | h <;>
      cases o <;> cases s <;> cases g <;>
        simp_all [bp_disable, bp_remove_from_ctx, hwbpInv, hwbpWf]

theorem C7_witness :
    hwbpInv ((bp_enable (bp_init 4096 7 .DATA_WRITEONLY .FOUR_BYTE) ⟨0, 0, 0, 0, 0⟩
        osAllOk).bp) :=
  ((C7_invariant_preservation (bp_init 4096 7 .DATA_WRITEONLY .FOUR_BYTE) ⟨0, 0, 0, 0, 0⟩
    osAllOk (by constructor <;> decide) (by unfold hwbpInv bp_init; simp) rfl).2.1).1

/-- C8 counterexample: a thread whose register file contains no
breakpoints — all eight DR7 enable bits (local and global) are 0 and all
four address registers are 0 — but has stale nonzero data in slot 0's
length field (DR7 = 0xC0000): `bp_enable` then `bp_disable` on one
Descriptor both succeed, yet the final control-register value is 0, not
the original 0xC0000. -/
theorem C8_counterexample :
    (∀ k, k < 8 → nthBit 786432 k = 0) ∧
    (bp_enable (bp_init 4096 7 .DATA_WRITEONLY .FOUR_BYTE) ⟨0, 0, 0, 0, 786432⟩ osAllOk).ok
      = true ∧
    (bp_disable
      (bp_enable (bp_init 4096 7 .DATA_WRITEONLY .FOUR_BYTE) ⟨0, 0, 0, 0, 786432⟩ osAllOk).bp
      (bp_enable (bp_init 4096 7 .DATA_WRITEONLY .FOUR_BYTE) ⟨0, 0, 0, 0, 786432⟩ osAllOk).thread
      osAllOk).ok = true ∧
    (bp_disable
      (bp_enable (bp_init 4096 7 .DATA_WRITEONLY .FOUR_BYTE) ⟨0, 0, 0, 0, 786432⟩ osAllOk).bp
      (bp_enable (bp_init 4096 7 .DATA_WRITEONLY .FOUR_BYTE) ⟨0, 0, 0, 0, 786432⟩ osAllOk).thread
      osAllOk).thread.Dr7 ≠ 786432 := by
  decide

set_option maxHeartbeats 1600000 in
/-- C8 (amended): for a thread whose debug-control register has all four
local-enable bits clear and whose slot-0 type and length fields are zero
(in particular a thread whose control register is 0), running `bp_enable`
and then `bp_disable` on one Descriptor succeeds and restores the
debug-control register to its exact original 64-bit value. -/
theorem C8_lifecycle_roundtrip (bp : HWBP) (th : CONTEXT) (hx : th.Dr7 < 2 ^ 64)
    (h0 : localBit th.Dr7 0 = 0) (h1 : localBit th.Dr7 1 = 0)
    (h2 : localBit th.Dr7 2 = 0) (h3 : localBit th.Dr7 3 = 0)
    (hrw : (decode th.Dr7).read_write_0 = 0) (hlen : (decode th.Dr7).length_0 = 0) :
    (bp_enable bp th osAllOk).ok = true ∧
    (bp_disable (bp_enable bp th osAllOk).bp (bp_enable bp th osAllOk).thread osAllOk).ok
      = true ∧
    (bp_disable (bp_enable bp th osAllOk).bp (bp_enable bp th osAllOk).thread osAllOk).thread.Dr7
      = th.Dr7 := by
  have hgfi : get_free_index (decode th.Dr7) = 0 := by
    unfold localBit at h0
    unfold get_free_index decode
    norm_num at h0 ⊢
    simp [h0]
  have hb1 := dr7Bounded_upd0 (decode th.Dr7) (decode_bounded _) 1 (lengthCode bp.length)
    (rwCode bp.read_write) (by norm_num) (lengthCode_lt _) (rwCode_lt _)
  refine ⟨by simp [bp_enable, bp_add_to_ctx, hgfi, osAllOk], ?_, ?_⟩
  · simp [bp_enable, bp_disable, bp_add_to_ctx, bp_remove_from_ctx, hgfi, osAllOk]
  · simp only [bp_enable, bp_disable, bp_add_to_ctx, bp_remove_from_ctx, hgfi, osAllOk]
    norm_num
    rw [decode_encode _ hb1]
    unfold localBit at h0 h1 h2 h3
    unfold decode at hrw hlen
    dsimp only at hrw hlen
    unfold encode decode
    norm_num at h0 h1 h2 h3 ⊢
    omega

theorem C8_witness :
    (bp_disable
      (bp_enable (bp_init 4096 7 .DATA_WRITEONLY .FOUR_BYTE) ⟨0, 0, 0, 0, 0⟩ osAllOk).bp
      (bp_enable (bp_init 4096 7 .DATA_WRITEONLY .FOUR_BYTE) ⟨0, 0, 0, 0, 0⟩ osAllOk).thread
      osAllOk).thread.Dr7 = (⟨0, 0, 0, 0, 0⟩ : CONTEXT).Dr7 :=
  (C8_lifecycle_roundtrip (bp_init 4096 7 .DATA_WRITEONLY .FOUR_BYTE) ⟨0, 0, 0, 0, 0⟩
    (by decide) (by decide) (by decide) (by decide) (by decide) (by decide) (by decide)).2.2

end Hwbp
